import Mathlib

/-!
Verification of the plastic_workflows provisioning core.

The Python source (a Python 2 code base: it uses `iteritems`, `basestring`
and tuple-unpacking lambdas) is embedded shallowly:

* prices and billing fractions are exact rationals;
* Python 2 integer division (`25/100 == 0`) is embedded via `Int.fdiv`;
* Python `sorted`/`list.sort` is embedded by a stable insertion sort;
* fallible paths return `Option`/explicit outcome types.
-/

namespace PlasticWorkflows

/-- Python 2 `round` rounds half away from zero. -/
def pyRoundHalfAway (q : ℚ) : ℤ :=
  if 0 ≤ q then ⌊q + 1/2⌋ else ⌈q - 1/2⌉

/-- Embedding of the sources `round(x, 4)` on exact rationals. -/
def round4 (q : ℚ) : ℚ :=
  (pyRoundHalfAway (q * 10000) : ℚ) / 10000

/-- The literal `(25/100)` from `engine.py`: both operands are Python 2
integers, so the division is integer (floor) division and yields `0`. -/
def py2Quarter : ℚ := ((Int.fdiv 25 100 : ℤ) : ℚ)

/-- Python `x % 1.0` (floor-based modulus). -/
def pyMod1 (x : ℚ) : ℚ := x - ⌊x⌋

/-- `mean` from `utils.py` (defined for nonempty input; `utils.mean` raises
`ValueError` on an empty list, callers guard the empty case). -/
def mean (xs : List ℚ) : ℚ := xs.sum / xs.length

/-- The square of `std_dev` from `utils.py`: the population variance.
`std_dev` itself returns `sqrt` of this quantity; its result is used by the
sources only as a comparison key (`min(..., key=attrgetter(price_deviation))`),
and `sqrt` is strictly monotone on nonnegative reals, so embedding the
deviation by the variance preserves every comparison the code makes. -/
def variance (xs : List ℚ) : ℚ :=
  (xs.map (fun x => (x - mean xs) ^ 2)).sum / xs.length

/-- Python `min(xs, key=k)`: first element with minimal key
(`none` on an empty list, where Python raises `ValueError`). -/
def pyMinBy {α : Type} (k : α → ℚ) : List α → Option α
  | [] => none
  | x :: xs =>
    some (xs.foldl (fun acc y => if k y < k acc then y else acc) x)

/-- Python `max(xs)` for rationals (`none` on empty, where Python raises). -/
def pyMax : List ℚ → Option ℚ
  | [] => none
  | x :: xs => some (xs.foldl max x)

/-- Insert into a sorted list, in front of the first element `y` with
`le x y`; used to embed the stable Python sort. -/
def insertLe {α : Type} (le : α → α → Bool) (x : α) : List α → List α
  | [] => [x]
  | y :: ys => if le x y then x :: y :: ys else y :: insertLe le x ys

/-- Stable insertion sort embedding Python `sorted`/`list.sort`. -/
def sortLe {α : Type} (le : α → α → Bool) : List α → List α
  | [] => []
  | x :: xs => insertLe le x (sortLe le xs)

theorem perm_insertLe {α : Type} (le : α → α → Bool) (x : α) (l : List α) :
    (insertLe le x l).Perm (x :: l) := by
  induction l with
  | nil => simp [insertLe]
  | cons y ys ih =>
      by_cases h : le x y
      · simp [insertLe, h]
      · simp only [insertLe, h, Bool.false_eq_true, if_false]
        exact (ih.cons y).trans (List.Perm.swap x y ys)

theorem perm_sortLe {α : Type} (le : α → α → Bool) (l : List α) :
    (sortLe le l).Perm l := by
  induction l with
  | nil => simp [sortLe]
  | cons x xs ih =>
      exact (perm_insertLe le x (sortLe le xs)).trans (ih.cons x)

theorem length_sortLe {α : Type} (le : α → α → Bool) (l : List α) :
    (sortLe le l).length = l.length :=
  (perm_sortLe le l).length_eq

theorem mem_sortLe {α : Type} (le : α → α → Bool) (a : α) (l : List α) :
    a ∈ sortLe le l ↔ a ∈ l :=
  (perm_sortLe le l).mem_iff

/-!
Embedding of `provisioning/provision_manager.py`.

An EC2 instance, as far as `ProvisionManager.__removeNodes` and
`ProvisionManager.set_node_count` look at it: its id and its private IP
address. The abstract hook `_remainingBillingInterval` (declared on the
class, implemented by provider subclasses via
`Engine.remaining_billing_interval`) is passed as a function `rbi`.
-/

structure PmInstance where
  id : String
  private_ip_address : String
deriving DecidableEq, Repr

/-- The slice of the batch-system `NodeInfo` namedtuple that
`__removeNodes` reads: the number of active workers on the node. -/
structure NodeInfo where
  workers : ℕ
deriving DecidableEq, Repr

/-- Stage 1 of `ProvisionManager.__removeNodes` (ResourceManager branch):
join nodes and instances on private IP address. -/
def rnJoin (instances : List PmInstance) (nodes : String → Option NodeInfo) :
    List (PmInstance × Option NodeInfo) :=
  instances.map (fun i => (i, nodes i.private_ip_address))

/-- Stage 2: unless forced, keep only pairs whose node info is present
with fewer than one running worker (`if force ... elif nodeInfo is not
None and nodeInfo.workers < 1`). -/
def rnSelect (force : Bool) (l : List (PmInstance × Option NodeInfo)) :
    List (PmInstance × Option NodeInfo) :=
  l.filter (fun p =>
    force || (match p.2 with
              | some ni => decide (ni.workers < 1)
              | none => false))

/-- Sort key of stage 3: `(nodeInfo.workers if nodeInfo else 1,
remainingBillingInterval(instance))`. -/
def rnKey (rbi : PmInstance → ℚ) (p : PmInstance × Option NodeInfo) : ℕ × ℚ :=
  ((match p.2 with | some ni => ni.workers | none => 1), rbi p.1)

/-- Stage 4: unless forced, drop pairs with more than 15 percent of the
prepaid hour left. -/
def rnBillingCut (force : Bool) (rbi : PmInstance → ℚ)
    (l : List (PmInstance × Option NodeInfo)) :
    List (PmInstance × Option NodeInfo) :=
  if force then l else l.filter (fun p => decide (rbi p.1 ≤ 15/100))

/-- Branch of `ProvisionManager.__removeNodes` taken when
`isinstance(self.resManager, ResourceManager)` holds. `nodes` embeds the
dictionary returned by `self.resManager.get_nodes(preemptible)`, keyed by
private IP. Returns the list of instances passed to `_logAndTerminate`. -/
def removeNodesRM (instances : List PmInstance) (numNodes : ℕ)
    (nodes : String → Option NodeInfo) (force : Bool)
    (rbi : PmInstance → ℚ) : List PmInstance :=
  ((rnBillingCut force rbi
      (sortLe (fun a b => decide (rnKey rbi a ≤ rnKey rbi b))
        (rnSelect force (rnJoin instances nodes)))).take numNodes).map
    Prod.fst

/-- Branch of `ProvisionManager.__removeNodes` taken without a
`ResourceManager`: the source sorts by remaining billing interval and the
truncation to `numNodes` is commented out, so the whole sorted list is
terminated. -/
def removeNodesNoRM (instances : List PmInstance) (_numNodes : ℕ)
    (rbi : PmInstance → ℚ) : List PmInstance :=
  sortLe (fun a b => decide (rbi a ≤ rbi b)) instances

/-- `ProvisionManager.__removeNodes`: returns the list of instances that
are terminated (`_logAndTerminate` receives exactly this list and the
method returns its length). -/
def removeNodes (rm : Option (String → Option NodeInfo))
    (instances : List PmInstance) (numNodes : ℕ) (force : Bool)
    (rbi : PmInstance → ℚ) : List PmInstance :=
  match rm with
  | some nodes => removeNodesRM instances numNodes nodes force rbi
  | none => removeNodesNoRM instances numNodes rbi

/-- Result of one `set_node_count` call: the returned count, the worker
instances afterwards, and how many provider-mutating calls were issued
(an `_addNodes` call, or a `_logAndTerminate` call on a nonempty list). -/
structure SncResult where
  count : ℕ
  state : List PmInstance
  providerCalls : ℕ
deriving DecidableEq, Repr

/-- `ProvisionManager.set_node_count`. `instances` is what
`_getWorkersInCluster(preemptible)` returns; `rm` is the resource manager
when one is available; `addImpl k` models the abstract grow hook
`_addNodes` (modelled from the spec: request `k` additional nodes through
the engine and report the nodes actually added; `_addNodes` is called but
not defined in the sources). -/
def set_node_count (rm : Option (String → Option NodeInfo))
    (rbi : PmInstance → ℚ) (addImpl : ℕ → List PmInstance)
    (instances : List PmInstance) (numNodes : ℕ) (force : Bool) :
    SncResult :=
  let numCurrentNodes := instances.length
  if numCurrentNodes < numNodes then
    let added := addImpl (numNodes - numCurrentNodes)
    ⟨numCurrentNodes + added.length, instances ++ added, 1⟩
  else if numNodes < numCurrentNodes then
    let victims := removeNodes rm instances (numCurrentNodes - numNodes) force rbi
    ⟨numCurrentNodes - victims.length, instances.diff victims,
      if victims.isEmpty then 0 else 1⟩
  else
    ⟨numNodes, instances, 0⟩

theorem rnBillingCut_sublist (force : Bool) (rbi : PmInstance → ℚ)
    (l : List (PmInstance × Option NodeInfo)) :
    (rnBillingCut force rbi l).Sublist l := by
  unfold rnBillingCut
  split
  · exact List.Sublist.refl l
  · exact List.filter_sublist l

theorem removeNodesRM_pairs_subperm (instances : List PmInstance)
    (numNodes : ℕ) (nodes : String → Option NodeInfo) (force : Bool)
    (rbi : PmInstance → ℚ) :
    ((rnBillingCut force rbi
        (sortLe (fun a b => decide (rnKey rbi a ≤ rnKey rbi b))
          (rnSelect force (rnJoin instances nodes)))).take numNodes).Subperm
      (rnJoin instances nodes) := by
  have t1 := List.take_sublist numNodes (rnBillingCut force rbi
    (sortLe (fun a b => decide (rnKey rbi a ≤ rnKey rbi b))
      (rnSelect force (rnJoin instances nodes))))
  have t2 := rnBillingCut_sublist force rbi
    (sortLe (fun a b => decide (rnKey rbi a ≤ rnKey rbi b))
      (rnSelect force (rnJoin instances nodes)))
  have t3 := perm_sortLe (fun a b => decide (rnKey rbi a ≤ rnKey rbi b))
    (rnSelect force (rnJoin instances nodes))
  have t4 : (rnSelect force (rnJoin instances nodes)).Sublist
      (rnJoin instances nodes) := List.filter_sublist _
  exact ((t1.trans t2).subperm).trans (t3.subperm.trans t4.subperm)

theorem subperm_map {α β : Type} (f : α → β) {l₁ l₂ : List α}
    (h : l₁.Subperm l₂) : (l₁.map f).Subperm (l₂.map f) := by
  obtain ⟨l, hp, hs⟩ := h
  exact ⟨l.map f, hp.map f, hs.map f⟩

theorem removeNodesRM_subperm (instances : List PmInstance) (numNodes : ℕ)
    (nodes : String → Option NodeInfo) (force : Bool) (rbi : PmInstance → ℚ) :
    (removeNodesRM instances numNodes nodes force rbi).Subperm instances := by
  have h := subperm_map Prod.fst
    (removeNodesRM_pairs_subperm instances numNodes nodes force rbi)
  have hj : (rnJoin instances nodes).map Prod.fst = instances := by
    simp only [rnJoin, List.map_map]
    exact List.map_id instances
  rw [hj] at h
  exact h

theorem removeNodes_subperm (rm : Option (String → Option NodeInfo))
    (instances : List PmInstance) (numNodes : ℕ) (force : Bool)
    (rbi : PmInstance → ℚ) :
    (removeNodes rm instances numNodes force rbi).Subperm instances := by
  match rm with
  | some nodes => exact removeNodesRM_subperm instances numNodes nodes force rbi
  | none =>
      exact (perm_sortLe (fun a b => decide (rbi a ≤ rbi b)) instances).subperm

theorem length_diff_of_subperm {α : Type} [DecidableEq α] {l v : List α}
    (h : v.Subperm l) : (l.diff v).length = l.length - v.length := by
  have hc := Multiset.card_sub (s := (l : Multiset α)) (t := (v : Multiset α))
    (Multiset.coe_le.mpr h)
  rw [Multiset.coe_sub] at hc
  simpa using hc

/-- The worker-instance list a `set_node_count` call leaves behind has
exactly the length the call reports: the code assumes that `_addNodes` and
`_logAndTerminate` change the cluster by exactly what they report. -/
theorem set_node_count_state_length (rm : Option (String → Option NodeInfo))
    (rbi : PmInstance → ℚ) (addImpl : ℕ → List PmInstance)
    (instances : List PmInstance) (numNodes : ℕ) (force : Bool) :
    (set_node_count rm rbi addImpl instances numNodes force).state.length =
      (set_node_count rm rbi addImpl instances numNodes force).count := by
  unfold set_node_count
  dsimp only
  split
  · simp
  · split
    · simpa using length_diff_of_subperm
        (removeNodes_subperm rm instances (instances.length - numNodes) force rbi)
    · dsimp only
      omega

/-!
Embedding of the error path of `Engine.create` (`provisioning/aws/engine.py`).

During the `try` block, each successfully obtained instance id is first
added to `pending_ids` and then bound to the engine via `self.embed`
(which sets the private `__instance` before tagging), so at the moment a
`ClientError` is caught, the pending set holds the ids stored so far, in
order, and `self.instance_id` is the most recently stored id, or `None`
when the error happened before any instance was stored.
-/

/-- What the `except ClientError` handler of `Engine.create` raises. -/
inductive CreateRaised where
  /-- the caught `ClientError`, re-raised by the bare `raise` -/
  | origError : CreateRaised
  /-- a `KeyError` escaping from `pending_ids.remove(...)` -/
  | keyError : CreateRaised
deriving DecidableEq, Repr

/-- Observable outcome of the handler: which instances were terminated,
and which exception leaves `create`. No instance list is ever returned. -/
structure CreateErrorOutcome where
  terminated : List String
  pendingAfter : List String
  raised : CreateRaised
deriving DecidableEq, Repr

/-- Python `set.remove`: drops the element, or raises `KeyError` when it
is absent (also when the engine is unbound and the element is `None`). -/
def pySetRemove (pending : List String) : Option String →
    Except Unit (List String)
  | some s => if s ∈ pending then .ok (pending.erase s) else .error ()
  | none => .error ()

/-- The `except ClientError` handler of `Engine.create`. `stored` is the
list of instance ids added to `pending_ids` before the error, in order;
`self.instance_id` is its last element (or `None` when it is empty). -/
def create_on_client_error (terminate_on_error : Bool)
    (stored : List String) : CreateErrorOutcome :=
  if terminate_on_error then
    { terminated := stored, pendingAfter := stored, raised := .origError }
  else
    match pySetRemove stored stored.getLast? with
    | .ok remaining =>
        { terminated := [], pendingAfter := remaining, raised := .origError }
    | .error _ =>
        { terminated := [], pendingAfter := stored, raised := .keyError }

/-!
Embedding of `wait_spot_requests_fullfilled`
(`provisioning/aws/ec2_instance.py`). The polled request state stream is a
function of the poll index. The loop counter `count_tries` increases only
when the request is in state `open`; an extra fuel argument makes the
function total (the source can loop forever on an `active`-but-unfulfilled
response, which is outside the claims considered here).
-/

/-- State of the single spot request as reported by one
`describe_spot_instance_requests` poll. -/
inductive SpotPollState where
  | failed : SpotPollState
  | openPending : SpotPollState
  | activeFulfilled (instanceId : String) : SpotPollState
  | otherState : SpotPollState
deriving DecidableEq, Repr

/-- How `wait_spot_requests_fullfilled` ends. -/
inductive SpotWaitResult where
  /-- `raise UserError(...)` on a failed request -/
  | raisedUserError : SpotWaitResult
  /-- `return r[InstanceId]` on a fulfilled request -/
  | fulfilled (instanceId : String) : SpotWaitResult
  /-- the `while` guard `count_tries < 10` became false: the function
  falls through and implicitly returns `None` -/
  | returnedNone : SpotWaitResult
  /-- fuel exhausted (models the possible nontermination of the source) -/
  | outOfFuel : SpotWaitResult
deriving DecidableEq, Repr

/-- The loop of `wait_spot_requests_fullfilled`: `poll i` is the request
state returned by the i-th describe call, `tries` is `count_tries`. -/
def waitSpotLoop (poll : ℕ → SpotPollState) :
    ℕ → ℕ → ℕ → SpotWaitResult
  | 0, _, _ => .outOfFuel
  | fuel + 1, i, tries =>
    if tries < 10 then
      match poll i with
      | .failed => .raisedUserError
      | .openPending => waitSpotLoop poll fuel (i + 1) (tries + 1)
      | .activeFulfilled instId => .fulfilled instId
      | .otherState => waitSpotLoop poll fuel (i + 1) tries
    else
      .returnedNone

/-- `wait_spot_requests_fullfilled`, started with `count_tries = 0`. -/
def wait_spot_requests_fullfilled (poll : ℕ → SpotPollState) (fuel : ℕ) :
    SpotWaitResult :=
  waitSpotLoop poll fuel 0 0

/-!
Embedding of the `Worker` class of `provisioning/provision_manager.py`
under Python attribute semantics. The class derives from (new-style)
`object`, defines six getter-only `property` descriptors, and its
`__init__` assigns to the six identically named attributes. A property
without a setter is a data descriptor whose `__set__` raises
`AttributeError`, and attribute reads through such a descriptor invoke
the getter, bypassing the instance dictionary.
-/

/-- Names of the getter-only properties defined on `Worker` (each getter
body is `return self.<name>`). -/
def workerPropertyNames : List String :=
  ["publicIP", "privateIP", "name", "launchTime", "nodeType", "preemptible"]

/-- Attribute names assigned by `Worker.__init__`, in source order. -/
def workerInitAssignments : List String :=
  ["publicIP", "privateIP", "name", "launchTime", "nodeType", "preemptible"]

/-- Python `setattr` on a `Worker` instance: a class-level getter-only
property intercepts the assignment and raises `AttributeError`; otherwise
the instance dictionary is updated. -/
def workerSetAttr (dict : List (String × String)) (attr : String)
    (value : String) : Except Unit (List (String × String)) :=
  if attr ∈ workerPropertyNames then .error ()
  else .ok ((attr, value) :: dict)

/-- `Worker.__init__(publicIP, privateIP, name, launchTime, nodeType,
preemptible)`: performs the six attribute assignments in order, stopping
at the first `AttributeError`. -/
def workerInit (publicIP privateIP nm launchTime nodeType preemptible :
    String) : Except Unit (List (String × String)) :=
  (workerInitAssignments.zip
      [publicIP, privateIP, nm, launchTime, nodeType, preemptible]).foldlM
    (fun dict (p : String × String) => workerSetAttr dict p.1 p.2) []

/-- Python attribute read `worker.<attr>` with a recursion budget: a
class-level property runs its getter, whose body reads the same attribute
again; only attributes without a property would consult the instance
dictionary. Returns `none` when the budget is exhausted, i.e. the read
never produces a value (Python raises `RuntimeError: maximum recursion
depth exceeded`). -/
def workerGetAttr (dict : List (String × String)) :
    ℕ → String → Option String
  | 0, _ => none
  | fuel + 1, attr =>
    if attr ∈ workerPropertyNames then workerGetAttr dict fuel attr
    else (dict.find? (fun p => p.1 == attr)).map Prod.snd

/-!
Embedding of the spot-bid machinery of `provisioning/aws/engine.py`:
`Engine.__optimize_spot_bid` and `Engine.__fix_spot`. A price history
entry carries its availability zone and its `SpotPrice`; the history list
is ordered most recent first (`__get_spot_history` sorts by timestamp,
descending).
-/

structure PricePoint where
  zone : String
  price : ℚ
deriving DecidableEq, Repr

/-- The `BestAvZone` namedtuple of `provisioning/aws/__init__.py`. The
`price_deviation` field is embedded by the population variance, see
`variance`. -/
structure BestAvZone where
  name : String
  price_deviation : ℚ
deriving DecidableEq, Repr

/-- Python `min` for rationals (`none` on empty, where Python raises). -/
def pyMinQ : List ℚ → Option ℚ
  | [] => none
  | x :: xs => some (xs.foldl min x)

/-- The zone loop of `Engine.__optimize_spot_bid`. The accumulator
`zone_hists` is initialised once, outside the loop, and never reset
between zones, exactly as in the source: each iteration appends the
current zone entries to it and then reads `zone_hists[0]` and the
deviation of the whole accumulated list. Returns the pair
`(markets_over_bid, markets_under_bid)`. -/
def optimizeZonesLoop (spot_hist : List PricePoint) (bid_price : ℚ) :
    List String → List PricePoint → List BestAvZone → List BestAvZone →
    List BestAvZone × List BestAvZone
  | [], _, over, under => (over, under)
  | z :: zs, zone_hists, over, under =>
    match zone_hists ++ spot_hist.filter (fun p => p.zone == z) with
    | [] =>
        -- price_dev, recent_price = 0.0, bid_price: the comparison
        -- recent_price < bid_price is false, append to markets_over_bid
        optimizeZonesLoop spot_hist bid_price zs [] (over ++ [⟨z, 0⟩]) under
    | first :: rest =>
        let all := first :: rest
        let price_dev := variance (all.map (fun p => round4 p.price))
        let recent_price := round4 first.price
        let best : BestAvZone := ⟨z, price_dev⟩
        if recent_price < bid_price then
          optimizeZonesLoop spot_hist bid_price zs all over (under ++ [best])
        else
          optimizeZonesLoop spot_hist bid_price zs all (over ++ [best]) under

/-- `stable_zone` of `Engine.__optimize_spot_bid`:
`min(markets_under_bid or markets_over_bid,
key=attrgetter(price_deviation)).name` (`none` when both lists are empty,
where Python raises `ValueError`). -/
def optimize_stable_zone (zones : List String) (spot_hist : List PricePoint)
    (bid_price : ℚ) : Option String :=
  let ou := optimizeZonesLoop spot_hist bid_price zones [] [] []
  let cands := if ou.2.isEmpty then ou.1 else ou.2
  (pyMinBy (fun b => b.price_deviation) cands).map (fun b => b.name)

/-- `check_spot_prices` nested in `Engine.__optimize_spot_bid`: rounds the
prices, then returns `(min, round(mean, 4))`; `None` on an empty history
(the caller then crashes unpacking the tuple, outside these claims). -/
def check_spot_prices (spot_hist : List PricePoint) : Option (ℚ × ℚ) :=
  let sh := spot_hist.map (fun p => round4 p.price)
  match pyMinQ sh with
  | none => none
  | some smaller => some (smaller, round4 (mean sh))

/-- The bid-correction tail of `Engine.__optimize_spot_bid`: the
average-based reduction first, then the minimum-based raise. The literal
`(25/100)` is Python 2 integer division, i.e. `py2Quarter = 0`. -/
def optimize_bid_corrected (bid_price sm avg : ℚ) : ℚ :=
  let b1 := if bid_price > avg * 2 then avg + py2Quarter * avg else bid_price
  if b1 ≤ sm then sm + py2Quarter * sm else b1

/-- `Engine.__optimize_spot_bid`: the chosen stable zone and the corrected
bid (`none` when the source would raise instead of returning). -/
def optimize_spot_bid (zones : List String) (spot_hist : List PricePoint)
    (bid_price : ℚ) : Option (String × ℚ) :=
  match optimize_stable_zone zones spot_hist bid_price,
      check_spot_prices spot_hist with
  | some z, some p => some (z, optimize_bid_corrected bid_price p.1 p.2)
  | _, _ => none

/-- Modelled from the spec (section 4.1 zone selection; compared against
`optimize_stable_zone` from the source): deviation per zone is computed
over that zone's own samples, the recent price is that zone's own most
recent sample, zones without history get deviation 0 and recent price
equal to the bid, under-bid means recent price strictly below the bid,
and the minimum-deviation zone of the under-bid set is preferred with the
over-bid set as fallback. -/
def specZoneChoice (zones : List String) (spot_hist : List PricePoint)
    (bid : ℚ) : Option String :=
  let tagged := zones.map (fun z =>
    match spot_hist.filter (fun p => p.zone == z) with
    | [] => ((⟨z, 0⟩ : BestAvZone), bid)
    | first :: rest =>
        ((⟨z, variance ((first :: rest).map (fun p => round4 p.price))⟩ :
          BestAvZone), round4 first.price))
  let under := (tagged.filter (fun t => decide (t.2 < bid))).map Prod.fst
  let over := (tagged.filter (fun t => ! decide (t.2 < bid))).map Prod.fst
  let cands := if under.isEmpty then over else under
  (pyMinBy (fun b => b.price_deviation) cands).map (fun b => b.name)

/-- The seeding branch of `Engine.__fix_spot` when no bid is supplied:
`mx = max(prices); bid = mx - ((25/100)*mx)`. Under Python 2 integer
division the subtrahend is zero, so the seed equals the maximum observed
price, despite the source comment saying 25 percent less than the highest
price. -/
def fix_spot_seed_bid (spot_hist : List PricePoint) : Option ℚ :=
  (pyMax (spot_hist.map (fun p => round4 p.price))).map
    (fun mx => mx - py2Quarter * mx)

/-- `Engine.remaining_billing_interval`: with `elapsedSeconds` the
difference between the current time and the instance launch time,
returns `1.0 - ((elapsedSeconds / 3600.0) % 1.0)`. -/
def remaining_billing_interval (elapsedSeconds : ℚ) : ℚ :=
  1 - pyMod1 (elapsedSeconds / 3600)

/-! Claim theorems. -/

/-- Claim C1, counterexample: with `terminateOnError=false` and a
provider-side error raised before any instance was stored, the handler
does not re-raise the original error: `pending_ids.remove(None)` raises a
`KeyError` instead. -/
theorem create_error_unbound_counterexample :
    (create_on_client_error false []).raised = CreateRaised.keyError ∧
      CreateRaised.keyError ≠ CreateRaised.origError := by
  exact ⟨rfl, by decide⟩

/-- Claim C1 (amended): on a provider-side `ClientError` during
`Engine.create`, with `terminateOnError=true` every pending instance is
terminated and the error is re-raised with no instance returned; with
`terminateOnError=false` and at least one instance stored before the
error, only this engine's own pending id (the most recently stored one)
is removed from the pending set, no terminate is issued and the error is
re-raised; if the error precedes every store, the pending-set removal
raises a `KeyError` instead of re-raising. -/
theorem create_error_handling (stored : List String) :
    ((create_on_client_error true stored).terminated = stored ∧
      (create_on_client_error true stored).raised = CreateRaised.origError) ∧
    (∀ (l : List String) (s : String), stored = l ++ [s] →
      (create_on_client_error false stored).terminated = [] ∧
      (create_on_client_error false stored).raised = CreateRaised.origError ∧
      (create_on_client_error false stored).pendingAfter = stored.erase s) := by
  constructor
  · exact ⟨rfl, rfl⟩
  · rintro l s rfl
    have hlast : (l ++ [s]).getLast? = some s := by
      simp [List.getLast?_concat]
    have hmem : s ∈ l ++ [s] := by simp
    unfold create_on_client_error pySetRemove
    rw [hlast]
    simp [hmem]

theorem create_error_handling_witness :
    (create_on_client_error true ["i-a", "i-b"]).terminated = ["i-a", "i-b"] ∧
      (create_on_client_error false ["i-a", "i-b"]).raised =
        CreateRaised.origError := by
  obtain ⟨h1, h2⟩ := create_error_handling ["i-a", "i-b"]
  exact ⟨h1.1, (h2 ["i-a"] "i-b" rfl).2.1⟩

/-- Claim C2: in the shrink path without ResourceManager load information
the source sorts the candidates but the truncation to the requested count
is commented out, so asking to remove 1 of 3 instances terminates all 3,
exceeding the requested count. -/
theorem remove_without_rm_terminates_all :
    (removeNodes none
        [⟨"i-1", "10.0.0.1"⟩, ⟨"i-2", "10.0.0.2"⟩, ⟨"i-3", "10.0.0.3"⟩]
        1 false (fun _ => 0)).length = 3 ∧ ¬ ((3 : ℕ) ≤ 1) := by
  constructor
  · rfl
  · decide

/-- Claim C6: a spot request that stays pending is polled at most 10
times, but when the bound is exhausted `wait_spot_requests_fullfilled`
does not raise a timeout error: the `while` loop falls through and the
function implicitly returns `None`, which `Engine.create` then treats as
an instance id. -/
theorem wait_spot_timeout_returns_none :
    wait_spot_requests_fullfilled (fun _ => SpotPollState.openPending) 20 =
        SpotWaitResult.returnedNone ∧
      SpotWaitResult.returnedNone ≠ SpotWaitResult.raisedUserError := by
  exact ⟨rfl, by decide⟩

/-- Claim C10: every construction of `Worker` raises `AttributeError`
(the first `__init__` assignment hits the getter-only `publicIP`
property), and reading any of the six property-shadowed attributes
recurses through the getter without ever producing a value, whatever the
instance dictionary and recursion budget. -/
theorem worker_unconstructible (a b c d e f : String)
    (dict : List (String × String)) (fuel : ℕ) (attr : String)
    (hattr : attr ∈ workerPropertyNames) :
    workerInit a b c d e f = Except.error () ∧
      workerGetAttr dict fuel attr = none := by
  constructor
  · rfl
  · induction fuel with
    | zero => rfl
    | succ n ih =>
        unfold workerGetAttr
        rw [if_pos hattr]
        exact ih

theorem worker_unconstructible_witness :
    workerInit "1.2.3.4" "10.0.0.1" "w" "t0" "m3.medium" "yes" =
        Except.error () ∧
      workerGetAttr [] 3 "publicIP" = none :=
  worker_unconstructible "1.2.3.4" "10.0.0.1" "w" "t0" "m3.medium" "yes"
    [] 3 "publicIP" (by decide)

/-- Claim C7: unless forced, the ResourceManager-based shrink selection
only ever terminates instances that have matching load information with
fewer than one active worker (instances without load information count as
busy) and whose remaining billing interval is at most 0.15. -/
theorem shrink_respects_busy_and_billing
    (instances : List PmInstance) (numNodes : ℕ)
    (nodes : String → Option NodeInfo) (rbi : PmInstance → ℚ)
    (x : PmInstance)
    (hx : x ∈ removeNodesRM instances numNodes nodes false rbi) :
    (∃ ni, nodes x.private_ip_address = some ni ∧ ni.workers < 1) ∧
      rbi x ≤ 15/100 := by
  unfold removeNodesRM at hx
  obtain ⟨p, hp, hpx⟩ := List.mem_map.mp hx
  have hp1 : p ∈ rnBillingCut false rbi
      (sortLe (fun a b => decide (rnKey rbi a ≤ rnKey rbi b))
        (rnSelect false (rnJoin instances nodes))) :=
    List.take_subset _ _ hp
  have hbill : rbi p.1 ≤ 15/100 := by
    unfold rnBillingCut at hp1
    simp only [Bool.false_eq_true, if_false] at hp1
    have h2 := (List.mem_filter.mp hp1).2
    simpa using h2
  have hsel : p ∈ rnSelect false (rnJoin instances nodes) := by
    unfold rnBillingCut at hp1
    simp only [Bool.false_eq_true, if_false] at hp1
    exact (mem_sortLe _ _ _).mp (List.mem_filter.mp hp1).1
  have hworkers : ∃ ni, p.2 = some ni ∧ ni.workers < 1 := by
    have h3 := (List.mem_filter.mp hsel).2
    simp only [Bool.false_or] at h3
    match h : p.2 with
    | some ni =>
        rw [h] at h3
        exact ⟨ni, rfl, by simpa using h3⟩
    | none => rw [h] at h3; cases h3
  have hjoin : p ∈ rnJoin instances nodes :=
    (List.filter_sublist _).subset hsel
  obtain ⟨i, _, hi⟩ := List.mem_map.mp hjoin
  obtain ⟨ni, hni, hw⟩ := hworkers
  refine ⟨⟨ni, ?_, hw⟩, hpx ▸ hbill⟩
  have hsnd : p.2 = nodes p.1.private_ip_address := by
    rw [← hi]
  rw [hpx] at hsnd
  rw [← hsnd, hni]

theorem shrink_respects_busy_and_billing_witness :
    (∃ ni, (fun _ : String => some (NodeInfo.mk 0)) "10.0.0.1" = some ni ∧
        ni.workers < 1) ∧
      (fun _ : PmInstance => (0 : ℚ)) ⟨"i-1", "10.0.0.1"⟩ ≤ 15/100 :=
  shrink_respects_busy_and_billing [⟨"i-1", "10.0.0.1"⟩] 1
    (fun _ => some (NodeInfo.mk 0)) (fun _ => (0 : ℚ)) ⟨"i-1", "10.0.0.1"⟩
    (by norm_num [removeNodesRM, rnJoin, rnSelect, rnBillingCut, rnKey,
      sortLe, insertLe])

/-- Claim C8, counterexample: two busy workers (one active worker each),
desired count 1, `force=false`, no load change between the calls. The
first `set_node_count` call finds no shrink victim and returns 2, not the
requested 1, so the claimed two-call scenario does not return `N` both
times. -/
theorem set_node_count_twice_counterexample :
    (set_node_count (some (fun _ => some (NodeInfo.mk 1))) (fun _ => 0)
        (fun _ => []) [⟨"i-1", "10.0.0.1"⟩, ⟨"i-2", "10.0.0.2"⟩]
        1 false).count = 2 ∧ (2 : ℕ) ≠ 1 := by
  exact ⟨rfl, by decide⟩

/-- Claim C8 (amended): `set_node_count` computes
`delta = desired - current` and, when `delta = 0`, performs no provider
calls and returns the current count unchanged; consequently, when a call
with desired count `N` actually returns `N`, an immediate second call
with the same `N` and no intervening load change performs zero provider
calls and returns `N` again. When the first call cannot reach `N` (for
example because every shrink candidate is busy), it returns the achieved
count instead of `N`. -/
theorem set_node_count_idempotent (rm : Option (String → Option NodeInfo))
    (rbi : PmInstance → ℚ) (addImpl : ℕ → List PmInstance)
    (instances : List PmInstance) (numNodes : ℕ) (force : Bool) :
    (instances.length = numNodes →
      set_node_count rm rbi addImpl instances numNodes force =
        ⟨numNodes, instances, 0⟩) ∧
    ((set_node_count rm rbi addImpl instances numNodes force).count =
        numNodes →
      (set_node_count rm rbi addImpl
          (set_node_count rm rbi addImpl instances numNodes force).state
          numNodes force).count = numNodes ∧
      (set_node_count rm rbi addImpl
          (set_node_count rm rbi addImpl instances numNodes force).state
          numNodes force).providerCalls = 0) := by
  have hnoop : ∀ (l : List PmInstance), l.length = numNodes →
      set_node_count rm rbi addImpl l numNodes force =
        ⟨numNodes, l, 0⟩ := by
    intro l hl
    unfold set_node_count
    dsimp only
    rw [if_neg (by omega), if_neg (by omega)]
  refine ⟨hnoop instances, fun hc => ?_⟩
  have hlen : (set_node_count rm rbi addImpl instances numNodes
      force).state.length = numNodes := by
    rw [set_node_count_state_length, hc]
  rw [hnoop _ hlen]
  exact ⟨rfl, rfl⟩

theorem set_node_count_idempotent_witness :
    (set_node_count none (fun _ => (0 : ℚ))
        (fun _ => [⟨"i-new", "10.0.0.9"⟩])
        (set_node_count none (fun _ => (0 : ℚ))
          (fun _ => [⟨"i-new", "10.0.0.9"⟩]) [] 1 false).state
        1 false).count = 1 ∧
    (set_node_count none (fun _ => (0 : ℚ))
        (fun _ => [⟨"i-new", "10.0.0.9"⟩])
        (set_node_count none (fun _ => (0 : ℚ))
          (fun _ => [⟨"i-new", "10.0.0.9"⟩]) [] 1 false).state
        1 false).providerCalls = 0 :=
  (set_node_count_idempotent none (fun _ => (0 : ℚ))
    (fun _ => [⟨"i-new", "10.0.0.9"⟩]) [] 1 false).2 rfl

/-- Helper: the Python 2 literal `(25/100)` evaluates to zero. -/
theorem py2Quarter_eq_zero : py2Quarter = 0 := rfl

/-- Claim C9, counterexample: at the instant the billing hour starts
(elapsed time 0, allowed by `now ≥ launch`) the function returns exactly
1, which is outside the claimed interval `[0, 1)`. -/
theorem remaining_billing_interval_at_launch :
    remaining_billing_interval 0 = 1 ∧
      ¬ (remaining_billing_interval 0 < 1) := by
  norm_num [remaining_billing_interval, pyMod1]

/-- Claim C9 (amended): for `now ≥ launch` the function returns exactly
`1 - ((elapsedSeconds/3600) mod 1)`, a value in `(0, 1]`; for a freshly
launched instance (elapsed under 540 seconds, nine minutes) the value
lies in `(0.85, 1]`. -/
theorem remaining_billing_interval_range (e : ℚ) (he : 0 ≤ e) :
    (remaining_billing_interval e = 1 - pyMod1 (e / 3600) ∧
      0 < remaining_billing_interval e ∧ remaining_billing_interval e ≤ 1) ∧
    (e < 540 → 0.85 < remaining_billing_interval e) := by
  have hfract : pyMod1 (e / 3600) = Int.fract (e / 3600) := rfl
  constructor
  · refine ⟨rfl, ?_, ?_⟩
    · have h1 := Int.fract_lt_one (e / 3600)
      simp only [remaining_billing_interval, hfract]
      linarith
    · have h2 := Int.fract_nonneg (e / 3600)
      simp only [remaining_billing_interval, hfract]
      linarith
  · intro h540
    have h1 : (0 : ℚ) ≤ e / 3600 := by positivity
    have h2 : e / 3600 < 15/100 := by
      rw [div_lt_iff₀ (by norm_num : (0 : ℚ) < 3600)]
      linarith
    have hfl : ⌊e / 3600⌋ = 0 := by
      refine Int.floor_eq_zero_iff.mpr ⟨h1, by linarith⟩
    simp only [remaining_billing_interval, pyMod1, hfl, Int.cast_zero]
    linarith

theorem remaining_billing_interval_range_witness :
    (0.85 : ℚ) < remaining_billing_interval 100 ∧
      remaining_billing_interval 100 ≤ 1 :=
  ⟨(remaining_billing_interval_range 100 (by norm_num)).2 (by norm_num),
    (remaining_billing_interval_range 100 (by norm_num)).1.2.2⟩

/-- Claim C4: on the 7-day history with prices 0.10, 0.12, 0.11 (zoneA)
and 0.50 (zoneB) and no initial bid, `Engine.__fix_spot` seeds the bid at
`mx - ((25/100)*mx)`; under Python 2 integer division `(25/100)` is 0, so
the seed equals the maximum price 0.50 and not the claimed 0.375. -/
theorem fix_spot_seed_not_discounted :
    fix_spot_seed_bid
        [⟨"zoneB", 0.50⟩, ⟨"zoneA", 0.11⟩, ⟨"zoneA", 0.12⟩,
          ⟨"zoneA", 0.10⟩] = some 0.50 ∧ (0.50 : ℚ) ≠ 0.375 := by
  constructor
  · norm_num [fix_spot_seed_bid, pyMax, round4, pyRoundHalfAway,
      py2Quarter_eq_zero, max_def]
  · norm_num

/-- Claim C5: for bid 1.0 over history prices 0.1 and 0.3 in the only
zone, `avg = 0.2` and the bid exceeds `2*avg = 0.4`, so the source
reduces it to `avg + ((25/100)*avg)`; under Python 2 integer division
this is `avg` itself, 0.2, and not the claimed `avg + 25% = 0.25`. -/
theorem optimize_bid_correction_no_quarter :
    optimize_spot_bid ["A"] [⟨"A", 0.1⟩, ⟨"A", 0.3⟩] 1 =
        some ("A", 0.2) ∧ (0.2 : ℚ) ≠ 0.25 := by
  constructor
  · norm_num [optimize_spot_bid, optimize_stable_zone, optimizeZonesLoop,
      check_spot_prices, optimize_bid_corrected, pyMinQ, pyMinBy, mean,
      variance, round4, pyRoundHalfAway, py2Quarter_eq_zero, min_def]
  · norm_num

/-- Claim C3: with zones A and B, history A: 5, 5 and B: 1 and bid 3,
the source accumulates the per-zone histories (the `zone_hists` list is
never reset), so zone B is classified with zone A's most recent price and
the deviation of the combined samples: the under-bid set comes out empty
and zone A is returned, while the per-zone rule stated by the claim puts
B alone in the under-bid set and returns B. -/
theorem optimize_stable_zone_accumulates :
    optimize_stable_zone ["A", "B"]
        [⟨"A", 5⟩, ⟨"A", 5⟩, ⟨"B", 1⟩] 3 = some "A" ∧
      specZoneChoice ["A", "B"]
        [⟨"A", 5⟩, ⟨"A", 5⟩, ⟨"B", 1⟩] 3 = some "B" := by
  have fA : List.filter (fun p => p.zone == "A")
      ([⟨"A", 5⟩, ⟨"A", 5⟩, ⟨"B", 1⟩] : List PricePoint) =
      [⟨"A", 5⟩, ⟨"A", 5⟩] := rfl
  have fB : List.filter (fun p => p.zone == "B")
      ([⟨"A", 5⟩, ⟨"A", 5⟩, ⟨"B", 1⟩] : List PricePoint) =
      [⟨"B", 1⟩] := rfl
  have hr5 : round4 5 = 5 := by norm_num [round4, pyRoundHalfAway]
  have hr1 : round4 1 = 1 := by norm_num [round4, pyRoundHalfAway]
  have hv2 : variance [(5 : ℚ), 5] = 0 := by norm_num [variance, mean]
  have hv3 : variance [(5 : ℚ), 5, 1] = 32/9 := by
    norm_num [variance, mean]
  have hv1 : variance [(1 : ℚ)] = 0 := by norm_num [variance, mean]
  have hc1 : ¬ ((5 : ℚ) < 3) := by norm_num
  have hc2 : (1 : ℚ) < 3 := by norm_num
  have hc3 : ¬ ((32/9 : ℚ) < 0) := by norm_num
  have hd1 : decide ((5 : ℚ) < 3) = false := by
    simp [hc1]
  have hd2 : decide ((1 : ℚ) < 3) = true := by
    simp [hc2]
  constructor
  · simp only [optimize_stable_zone, optimizeZonesLoop, fA, fB,
      List.nil_append, List.cons_append, List.map_cons, List.map_nil,
      List.append_nil, hr5, hr1, hv2, hv3, hc1, if_false, List.isEmpty_nil,
      List.isEmpty_cons, pyMinBy, List.foldl_cons, List.foldl_nil, hc3]
    norm_num
  · simp only [specZoneChoice, List.map_cons, List.map_nil]
    rw [fA, fB]
    simp only [hr5, hr1, hv2, hv1, hd1, hd2, List.filter_cons,
      List.filter_nil, Bool.not_false, Bool.not_true, List.map_cons,
      List.map_nil, List.isEmpty_cons, pyMinBy, List.foldl_cons,
      List.foldl_nil]
    simp

end PlasticWorkflows
